import Mathlib

/-!
# Verification of the ai-chat-streamer core

A shallow embedding of the streaming chat pipeline:

* `src/stores/chatStore.ts` — the Zustand `ChatStore` (messages, streaming
  buffer) and its actions `addUserMessage`, `startAssistantMessage`,
  `appendToStream`, `flushStreamBuffer`, `completeStream`, `stopStream`,
  `clearMessages`.
* `src/components/chat/VirtualizedMessageList.tsx` — the `estimateSize`
  height estimator and the `handleScroll` auto-scroll state machine.
* `src/components/chat/MessageContent.tsx` — the `displayContent`
  truncation policy of the renderer.

Modelling conventions: `nanoid()` id generation is modelled by a `nextId`
counter (ids are opaque and unique in the source; the counter realises
uniqueness); `Date.now()` is passed in as an explicit `now` argument;
JavaScript strings become Lean `String`s; `Array.prototype.findIndex`
(returning `-1` on failure) becomes an `Option Nat`-valued `findIndex`.
Store actions, which mutate the singleton store in the source, become
functions `ChatStore → ChatStore`.
-/

namespace ChatStreamer

/-! ## Data model (`chatStore.ts`) -/

inductive MessageRole where
  | user
  | assistant
deriving DecidableEq, Repr

inductive MessageStatus where
  | complete
  | streaming
  | error
deriving DecidableEq, Repr

/-- `MessageMeta` from `chatStore.ts` (nanoid ids modelled as `Nat`). -/
structure MessageMeta where
  id : Nat
  role : MessageRole
  status : MessageStatus
  timestamp : Nat
deriving DecidableEq, Repr

/-- `Message` from `chatStore.ts`. -/
structure Message where
  meta : MessageMeta
  content : String
deriving DecidableEq, Repr

/-- `StreamingState` from `chatStore.ts`. -/
structure StreamingState where
  isStreaming : Bool
  streamingMessageId : Option Nat
  pendingContent : String
deriving DecidableEq, Repr

/-- The store state of `useChatStore`.  `nextId` is the id counter that
models `nanoid()`'s freshness. -/
structure ChatStore where
  messages : List Message
  streaming : StreamingState
  nextId : Nat
deriving DecidableEq, Repr

/-- The initial state of the store. -/
def initialStore : ChatStore :=
  { messages := []
    streaming := { isStreaming := false, streamingMessageId := none, pendingContent := "" }
    nextId := 0 }

/-- JavaScript `Array.prototype.findIndex`, with `-1` modelled as `none`. -/
def findIndex {α : Type} (p : α → Bool) : List α → Option Nat
  | [] => none
  | a :: l => if p a then some 0 else (findIndex p l).map (· + 1)

/-- The in-place element update `newMessages[i] = f(newMessages[i])` used by
`flushStreamBuffer` and `completeStream` (a no-op when `i` is out of range,
which cannot happen at the call sites). -/
def setMessageAt (msgs : List Message) (i : Nat) (f : Message → Message) : List Message :=
  match msgs[i]? with
  | none => msgs
  | some m => msgs.set i (f m)

/-! ## Store actions (`chatStore.ts`) -/

/-- `addUserMessage`: append a complete user message. -/
def addUserMessage (s : ChatStore) (content : String) (now : Nat) : ChatStore :=
  { s with
    messages := s.messages ++
      [{ meta := { id := s.nextId, role := .user, status := .complete, timestamp := now }
         content := content }]
    nextId := s.nextId + 1 }

/-- `startAssistantMessage`: append a streaming assistant placeholder and
(re)target the streaming state at it.  The source performs no check that a
stream is already active. -/
def startAssistantMessage (s : ChatStore) (now : Nat) : ChatStore :=
  { s with
    messages := s.messages ++
      [{ meta := { id := s.nextId, role := .assistant, status := .streaming, timestamp := now }
         content := "" }]
    streaming :=
      { isStreaming := true, streamingMessageId := some s.nextId, pendingContent := "" }
    nextId := s.nextId + 1 }

/-- `MAX_BUFFER_SIZE` from `appendToStream` (50 KB buffer cap). -/
def MAX_BUFFER_SIZE : Nat := 50000

/-- `flushStreamBuffer`: merge `pendingContent` into the streaming message's
content and clear the buffer.  Early returns: no target id, empty buffer
(JS falsiness of `''`), or target id not found in `messages`.  The source
picks `[current, pending].join('')` over `current + pending` above 100000
characters; both denote the same string. -/
def flushStreamBuffer (s : ChatStore) : ChatStore :=
  match s.streaming.streamingMessageId with
  | none => s
  | some mid =>
    if s.streaming.pendingContent = "" then s
    else
      match findIndex (fun m => m.meta.id == mid) s.messages with
      | none => s
      | some i =>
        let pendingContent := s.streaming.pendingContent
        { s with
          messages := setMessageAt s.messages i (fun msg =>
            { msg with content :=
                if msg.content.length > 100000
                then String.join [msg.content, pendingContent]
                else msg.content ++ pendingContent })
          streaming := { s.streaming with pendingContent := "" } }

/-- `appendToStream`: if the buffer already exceeds `MAX_BUFFER_SIZE`,
force a flush first; then append the chunk to the (possibly flushed)
buffer.  Note the cap is tested on the buffer as it was *before* this
chunk is added, and no active-stream check is performed. -/
def appendToStream (s : ChatStore) (chunk : String) : ChatStore :=
  let s1 := if s.streaming.pendingContent.length > MAX_BUFFER_SIZE
            then flushStreamBuffer s
            else s
  { s1 with
    streaming := { s1.streaming with
      pendingContent := s1.streaming.pendingContent ++ chunk } }

/-- `completeStream`: capture `streaming`/`messages` (the source reads them
via `get()` before flushing), flush, then mark the target message complete
and clear the streaming state; early return (after the flush) when there is
no target id or the id is not found. -/
def completeStream (s : ChatStore) : ChatStore :=
  let streaming0 := s.streaming
  let messages0 := s.messages
  let s1 := flushStreamBuffer s
  match streaming0.streamingMessageId with
  | none => s1
  | some mid =>
    match findIndex (fun m => m.meta.id == mid) messages0 with
    | none => s1
    | some i =>
      { s1 with
        messages := setMessageAt s1.messages i (fun msg =>
          { msg with meta := { msg.meta with status := .complete } })
        streaming :=
          { isStreaming := false, streamingMessageId := none, pendingContent := "" } }

/-- `stopStream` simply delegates to `completeStream`. -/
def stopStream (s : ChatStore) : ChatStore :=
  completeStream s

/-- `clearMessages`: reset messages and streaming state. -/
def clearMessages (s : ChatStore) : ChatStore :=
  { s with
    messages := []
    streaming := { isStreaming := false, streamingMessageId := none, pendingContent := "" } }

/-- A sequence of `appendToStream` calls, in call order. -/
def appendList (s : ChatStore) (chunks : List String) : ChatStore :=
  chunks.foldl appendToStream s

/-- Number of messages whose status is `streaming`. -/
def streamingCount (s : ChatStore) : Nat :=
  s.messages.countP (fun m => m.meta.status == MessageStatus.streaming)

/-- Content of the message at index `i` (observer used by the theorems). -/
def contentAt (s : ChatStore) (i : Nat) : Option String :=
  s.messages[i]?.map (fun m => m.content)

/-- A stream is active: the streaming state targets `mid`, and `mid` is
found at index `i` of the message list. -/
def StreamActive (s : ChatStore) (mid i : Nat) : Prop :=
  s.streaming.streamingMessageId = some mid ∧
  findIndex (fun m => m.meta.id == mid) s.messages = some i

instance (s : ChatStore) (mid i : Nat) : Decidable (StreamActive s mid i) := by
  unfold StreamActive
  infer_instance

/-- The merged-so-far content of the message at index `i` together with the
not-yet-flushed buffer: the quantity every append grows and every flush
preserves. -/
def contentPlusPending (s : ChatStore) (i : Nat) : Option String :=
  s.messages[i]?.map (fun m => m.content ++ s.streaming.pendingContent)

/-- The store mid-stream: base store `s0` extended with one assistant
message created by `startAssistantMessage` at time `now`, whose merged
content is `merged` while `pending` is still buffered.  Every state between
a `startAssistantMessage` and the following `completeStream` has this
shape. -/
def midStream (s0 : ChatStore) (now : Nat) (merged pending : String) : ChatStore :=
  { messages := s0.messages ++
      [{ meta := { id := s0.nextId, role := .assistant, status := .streaming, timestamp := now }
         content := merged }]
    streaming := { isStreaming := true, streamingMessageId := some s0.nextId,
                   pendingContent := pending }
    nextId := s0.nextId + 1 }

/-- States reachable from the initial empty store by the public store
actions, with arbitrary arguments. -/
inductive Reachable : ChatStore → Prop
  | init : Reachable initialStore
  | user : Reachable s → Reachable (addUserMessage s c now)
  | start : Reachable s → Reachable (startAssistantMessage s now)
  | append : Reachable s → Reachable (appendToStream s c)
  | flush : Reachable s → Reachable (flushStreamBuffer s)
  | complete : Reachable s → Reachable (completeStream s)
  | stop : Reachable s → Reachable (stopStream s)
  | clear : Reachable s → Reachable (clearMessages s)

/-- Reachability when `startAssistantMessage` is only invoked while no
stream is active (the discipline the callers in `streamingEngine.ts` /
`ChatInput.tsx` follow, and the guard the spec ascribes to
`startStream`). -/
inductive GuardedReachable : ChatStore → Prop
  | init : GuardedReachable initialStore
  | user : GuardedReachable s → GuardedReachable (addUserMessage s c now)
  | start : GuardedReachable s → s.streaming.isStreaming = false →
      GuardedReachable (startAssistantMessage s now)
  | append : GuardedReachable s → GuardedReachable (appendToStream s c)
  | flush : GuardedReachable s → GuardedReachable (flushStreamBuffer s)
  | complete : GuardedReachable s → GuardedReachable (completeStream s)
  | stop : GuardedReachable s → GuardedReachable (stopStream s)
  | clear : GuardedReachable s → GuardedReachable (clearMessages s)

/-- The store invariant maintained by guarded execution: streaming flag and
target id agree, message ids are unique and below the id counter, and every
message with status `streaming` is the targeted one (none, when no target). -/
def StoreInv (s : ChatStore) : Prop :=
  s.streaming.isStreaming = s.streaming.streamingMessageId.isSome ∧
  (s.messages.map (fun m => m.meta.id)).Nodup ∧
  (∀ m ∈ s.messages, m.meta.id < s.nextId) ∧
  (∀ mid, s.streaming.streamingMessageId = some mid →
    ∀ m ∈ s.messages, m.meta.status = .streaming → m.meta.id = mid) ∧
  (s.streaming.streamingMessageId = none →
    ∀ m ∈ s.messages, m.meta.status ≠ .streaming)

/-! ## Height estimation (`VirtualizedMessageList.tsx`) -/

/-- The `textHeight` computation of `estimateSize`: linear at 24 units per
line up to 500 lines, then `500 * 24 + Math.log10(textLines - 499) * 1000`.
`Math.log10` is modelled by `Real.logb 10`, hence the value lives in `ℝ`
and the definition is noncomputable exactly as far as the source's
floating-point `Math` call reaches. -/
noncomputable def textHeightFn (textLines : Nat) : ℝ :=
  if textLines > 500
  then 500 * 24 + Real.logb 10 ((textLines : ℝ) - 499) * 1000
  else (textLines : ℝ) * 24

/-- `estimateSize` from `VirtualizedMessageList.tsx`, as a function of the
message's content length and its count of ``` fences: the source computes
`contentLength = message.content.length`,
`codeBlockCount = (content.match(/``` $/g) || []).length / 2` (JS real
division) and clamps `baseHeight + textHeight + codeBlockBonus` into
`[100, 12000]`.  `Math.ceil(effectiveLength / 80)` on naturals is the
rounded-up division `(effectiveLength + 79) / 80`. -/
noncomputable def estimateSize (contentLength codeFences : Nat) : ℝ :=
  let effectiveLength : Nat := min contentLength 200000
  let textLines : Nat := (effectiveLength + 79) / 80
  let baseHeight : ℝ := 80
  let textHeight : ℝ := textHeightFn textLines
  let codeBlockCount : ℝ := (codeFences : ℝ) / 2
  let codeBlockBonus : ℝ := min codeBlockCount 10 * 150
  min 12000 (max 100 (baseHeight + textHeight + codeBlockBonus))

/-! ## Auto-scroll state machine (`VirtualizedMessageList.tsx`) -/

/-- The scroll-anchor refs: `isUserScrollingRef` (true means the user
scrolled away and auto-scroll is disabled — the spec's `free` state) and
`wasAtBottomRef`. -/
structure ScrollState where
  isUserScrolling : Bool
  wasAtBottom : Bool
deriving DecidableEq, Repr

/-- Initial refs: `isUserScrollingRef = false`, `wasAtBottomRef = true`. -/
def initialScrollState : ScrollState :=
  { isUserScrolling := false, wasAtBottom := true }

/-- `handleScroll`, given the fresh `atBottom` reading: disable auto-scroll
when the bottom was just left, re-enable it when back at the bottom, then
record `atBottom` into `wasAtBottomRef`. -/
def handleScroll (st : ScrollState) (atBottom : Bool) : ScrollState :=
  let u1 := if !atBottom && st.wasAtBottom then true else st.isUserScrolling
  let u2 := if atBottom && u1 then false else u1
  { isUserScrolling := u2, wasAtBottom := atBottom }

/-- The new-user-message effect: when the last message is user-authored,
`isUserScrollingRef` is reset to `false` (and the view scrolls down). -/
def onUserMessage (st : ScrollState) : ScrollState :=
  { st with isUserScrolling := false }

/-- The spec's `followingBottom` state: auto-scroll engaged. -/
def followingBottom (st : ScrollState) : Prop :=
  st.isUserScrolling = false

instance (st : ScrollState) : Decidable (followingBottom st) := by
  unfold followingBottom
  infer_instance

/-! ## Renderer truncation (`MessageContent.tsx`) -/

/-- `MAX_RENDER_SIZE` from `MessageContent.tsx` (200 KB display cap). -/
def MAX_RENDER_SIZE : Nat := 200000

/-- The fixed truncation notice the renderer appends. -/
def truncationNotice : String :=
  "\n\n... [Content truncated at 200KB for display. Full content preserved in memory.]"

/-- `displayContent` from `MessageContent.tsx`: the painted text as a pure
function of the stored content (`isStreaming` only selects the renderer
variant, never the displayed text).  The renderer has no write access to
the store — in this embedding it does not even receive it — so computing
the display cannot alter any stored message. -/
def displayContent (content : String) : String :=
  if content.length > MAX_RENDER_SIZE
  then content.take MAX_RENDER_SIZE ++ truncationNotice
  else content

/-! ## Supporting lemmas about `flushStreamBuffer` -/

theorem flush_of_id_none (s : ChatStore)
    (h : s.streaming.streamingMessageId = none) :
    flushStreamBuffer s = s := by
  unfold flushStreamBuffer
  rw [h]

theorem flush_of_pending_empty (s : ChatStore)
    (h : s.streaming.pendingContent = "") :
    flushStreamBuffer s = s := by
  unfold flushStreamBuffer
  cases hid : s.streaming.streamingMessageId with
  | none => rfl
  | some mid => simp [h]

theorem flush_pending_of_active (s : ChatStore) (mid i : Nat)
    (hid : s.streaming.streamingMessageId = some mid)
    (hfi : findIndex (fun m => m.meta.id == mid) s.messages = some i) :
    (flushStreamBuffer s).streaming.pendingContent = "" := by
  unfold flushStreamBuffer
  rw [hid]
  by_cases hp : s.streaming.pendingContent = ""
  · simp [hp]
  · simp [hp, hfi]

/-! ## Supporting lemmas about `findIndex`, `setMessageAt` and `String.join` -/

theorem findIndex_some {α : Type} (p : α → Bool) :
    ∀ (l : List α) (i : Nat), findIndex p l = some i →
      ∃ m, l[i]? = some m ∧ p m = true := by
  intro l
  induction l with
  | nil => intro i h; simp [findIndex] at h
  | cons a l ih =>
    intro i h
    unfold findIndex at h
    by_cases hp : p a
    · rw [if_pos hp] at h
      cases h
      exact ⟨a, List.getElem?_cons_zero, hp⟩
    · rw [if_neg hp] at h
      cases hfi : findIndex p l with
      | none => rw [hfi] at h; simp at h
      | some j =>
        rw [hfi] at h
        simp only [Option.map_some'] at h
        cases h
        obtain ⟨m, hm, hpm⟩ := ih j hfi
        exact ⟨m, by simpa using hm, hpm⟩

theorem findIndex_set {α : Type} (p : α → Bool) (v : α) :
    ∀ (l : List α) (j : Nat) (m : α), l[j]? = some m → p v = p m →
      findIndex p (l.set j v) = findIndex p l := by
  intro l
  induction l with
  | nil => intro j m hm; simp at hm
  | cons a l ih =>
    intro j m hm hp
    cases j with
    | zero =>
      rw [List.getElem?_cons_zero] at hm
      cases hm
      rw [List.set_cons_zero]
      unfold findIndex
      rw [hp]
    | succ j =>
      rw [List.getElem?_cons_succ] at hm
      rw [List.set_cons_succ]
      unfold findIndex
      rw [ih j m hm hp]

theorem findIndex_append_last {α : Type} (p : α → Bool) (x : α) (hx : p x = true) :
    ∀ (l : List α), (∀ m ∈ l, p m = false) →
      findIndex p (l ++ [x]) = some l.length := by
  intro l
  induction l with
  | nil => intro _; simp [findIndex, hx]
  | cons a l ih =>
    intro h
    have ha : p a = false := h a (List.mem_cons_self a l)
    rw [List.cons_append]
    unfold findIndex
    rw [if_neg (by simp [ha]), ih (fun m hm => h m (List.mem_cons_of_mem a hm))]
    rfl

theorem setMessageAt_eq (msgs : List Message) (i : Nat) (f : Message → Message)
    (m : Message) (hm : msgs[i]? = some m) :
    setMessageAt msgs i f = msgs.set i (f m) := by
  unfold setMessageAt
  rw [hm]

theorem string_foldl_append (l : List String) :
    ∀ a : String, l.foldl (fun r s => r ++ s) a = a ++ l.foldl (fun r s => r ++ s) "" := by
  induction l with
  | nil => intro a; simp
  | cons x l ih =>
    intro a
    simp only [List.foldl_cons]
    rw [ih (a ++ x), ih ("" ++ x)]
    simp [String.append_assoc]

theorem string_join_cons (c : String) (cs : List String) :
    String.join (c :: cs) = c ++ String.join cs := by
  unfold String.join
  simp only [List.foldl_cons]
  rw [string_foldl_append cs ("" ++ c)]
  simp

theorem string_join_pair (a b : String) : String.join [a, b] = a ++ b := by
  rw [string_join_cons, string_join_cons]
  simp [String.join]

/-- Characterisation of `flushStreamBuffer` when it actually merges: known
target id, nonempty buffer, target found at index `i`. -/
theorem flush_merge (s : ChatStore) (mid i : Nat) (msg : Message)
    (hid : s.streaming.streamingMessageId = some mid)
    (hp : s.streaming.pendingContent ≠ "")
    (hfi : findIndex (fun m => m.meta.id == mid) s.messages = some i)
    (hm : s.messages[i]? = some msg) :
    flushStreamBuffer s =
      { s with
        messages := s.messages.set i
          { msg with content := msg.content ++ s.streaming.pendingContent }
        streaming := { s.streaming with pendingContent := "" } } := by
  have hcontent :
      (if msg.content.length > 100000
       then String.join [msg.content, s.streaming.pendingContent]
       else msg.content ++ s.streaming.pendingContent) =
        msg.content ++ s.streaming.pendingContent := by
    rw [string_join_pair]
    exact ite_self _
  simp only [flushStreamBuffer, hid, hp, if_false, hfi]
  rw [setMessageAt_eq _ _ _ msg hm]
  simp only [hcontent]

/-! ## C2 — concatenation of chunks between two flushes -/

theorem cpp_eq_contentAt (t : ChatStore) (i : Nat)
    (ht : t.streaming.pendingContent = "") :
    contentPlusPending t i = contentAt t i := by
  unfold contentPlusPending contentAt
  rw [ht]
  cases t.messages[i]? <;> simp

theorem flush_active_invariant (s : ChatStore) (mid i : Nat)
    (h : StreamActive s mid i) :
    StreamActive (flushStreamBuffer s) mid i ∧
    (flushStreamBuffer s).streaming.pendingContent = "" ∧
    contentPlusPending (flushStreamBuffer s) i = contentPlusPending s i := by
  obtain ⟨hid, hfi⟩ := h
  by_cases hp : s.streaming.pendingContent = ""
  · rw [flush_of_pending_empty s hp]
    exact ⟨⟨hid, hfi⟩, hp, rfl⟩
  · obtain ⟨msg, hm, hpm⟩ := findIndex_some _ _ _ hfi
    have hlen : i < s.messages.length := by
      obtain ⟨hlt, -⟩ := List.getElem?_eq_some_iff.mp hm
      exact hlt
    rw [flush_merge s mid i msg hid hp hfi hm]
    refine ⟨⟨hid, ?_⟩, rfl, ?_⟩
    · exact (findIndex_set _
        { msg with content := msg.content ++ s.streaming.pendingContent }
        s.messages i msg hm rfl).trans hfi
    · unfold contentPlusPending
      rw [List.getElem?_set_self hlen, hm]
      simp

theorem append_active_invariant (s : ChatStore) (mid i : Nat) (c : String)
    (h : StreamActive s mid i) :
    StreamActive (appendToStream s c) mid i ∧
    contentPlusPending (appendToStream s c) i =
      (contentPlusPending s i).map (· ++ c) := by
  have key : ∀ t : ChatStore, StreamActive t mid i →
      StreamActive ({ t with streaming := { t.streaming with
        pendingContent := t.streaming.pendingContent ++ c } }) mid i ∧
      contentPlusPending ({ t with streaming := { t.streaming with
        pendingContent := t.streaming.pendingContent ++ c } }) i =
        (contentPlusPending t i).map (· ++ c) := by
    intro t ht
    refine ⟨⟨ht.1, ht.2⟩, ?_⟩
    unfold contentPlusPending
    cases hm : t.messages[i]? <;> simp [String.append_assoc]
  by_cases hcond : s.streaming.pendingContent.length > MAX_BUFFER_SIZE
  · have h1 := flush_active_invariant s mid i h
    have h2 := key (flushStreamBuffer s) h1.1
    have heq : appendToStream s c =
        { flushStreamBuffer s with streaming := { (flushStreamBuffer s).streaming with
            pendingContent := (flushStreamBuffer s).streaming.pendingContent ++ c } } := by
      unfold appendToStream
      rw [if_pos hcond]
    rw [heq]
    exact ⟨h2.1, by rw [h2.2, h1.2.2]⟩
  · have heq : appendToStream s c =
        { s with streaming := { s.streaming with
            pendingContent := s.streaming.pendingContent ++ c } } := by
      unfold appendToStream
      rw [if_neg hcond]
    rw [heq]
    exact key s h

theorem appendList_active_invariant (mid i : Nat) :
    ∀ (chunks : List String) (s : ChatStore), StreamActive s mid i →
      StreamActive (appendList s chunks) mid i ∧
      contentPlusPending (appendList s chunks) i =
        (contentPlusPending s i).map (· ++ String.join chunks) := by
  intro chunks
  induction chunks with
  | nil =>
    intro s h
    refine ⟨h, ?_⟩
    show contentPlusPending s i = (contentPlusPending s i).map (· ++ String.join [])
    cases hx : contentPlusPending s i <;> simp [String.join]
  | cons c cs ih =>
    intro s h
    have h1 := append_active_invariant s mid i c h
    have h2 := ih (appendToStream s c) h1.1
    refine ⟨h2.1, ?_⟩
    show contentPlusPending (appendList (appendToStream s c) cs) i = _
    rw [h2.2, h1.2, string_join_cons]
    cases hx : contentPlusPending s i with
    | none => simp
    | some v => simp [String.append_assoc]

/-- C2: for every sequence of `appendToStream` calls made while a stream is
active between two `flushStreamBuffer` calls, the streaming message's
content after the second flush equals its content before the sequence
concatenated with all appended chunks in call order — no chunk duplicated
or dropped, internal forced flushes included. -/
theorem c2_append_flush_concat (s : ChatStore) (mid i : Nat) (chunks : List String)
    (h : StreamActive s mid i) :
    contentAt (flushStreamBuffer (appendList (flushStreamBuffer s) chunks)) i =
      (contentAt (flushStreamBuffer s) i).map (· ++ String.join chunks) := by
  have h1 := flush_active_invariant s mid i h
  have h2 := appendList_active_invariant mid i chunks (flushStreamBuffer s) h1.1
  have h3 := flush_active_invariant (appendList (flushStreamBuffer s) chunks) mid i h2.1
  rw [← cpp_eq_contentAt _ i h3.2.1, h3.2.2, h2.2, cpp_eq_contentAt _ i h1.2.1]

theorem c2_witness :
    StreamActive (startAssistantMessage initialStore 0) 0 0 ∧
    contentAt (flushStreamBuffer (appendList
        (flushStreamBuffer (startAssistantMessage initialStore 0)) ["ab", "cd"])) 0 =
      (contentAt (flushStreamBuffer (startAssistantMessage initialStore 0)) 0).map
        (· ++ String.join ["ab", "cd"]) :=
  ⟨by decide, c2_append_flush_concat (startAssistantMessage initialStore 0) 0 0 ["ab", "cd"]
    (by decide)⟩

/-! ## C8 — flush idempotence -/

/-- C8: `flushStreamBuffer` is idempotent: for every store state, a second
call with no intervening `appendToStream` produces no change. -/
theorem c8_flush_idempotent (s : ChatStore) :
    flushStreamBuffer (flushStreamBuffer s) = flushStreamBuffer s := by
  cases hid : s.streaming.streamingMessageId with
  | none => rw [flush_of_id_none s hid, flush_of_id_none s hid]
  | some mid =>
    by_cases hp : s.streaming.pendingContent = ""
    · rw [flush_of_pending_empty s hp, flush_of_pending_empty s hp]
    · cases hfi : findIndex (fun m => m.meta.id == mid) s.messages with
      | none =>
        have h1 : flushStreamBuffer s = s := by
          unfold flushStreamBuffer
          rw [hid]
          simp [hp, hfi]
        rw [h1, h1]
      | some i =>
        exact flush_of_pending_empty _ (flush_pending_of_active s mid i hid hfi)

/-! ## C4 — appending with no active stream -/

/-- C4 counterexample: on the initial store (no stream active),
`appendToStream` does not fail with `InvalidState`: it returns normally,
leaves `messages` unchanged, and silently absorbs the chunk into
`pendingContent` (`appendToStream` performs no active-stream check). -/
theorem c4_counterexample :
    (appendToStream initialStore "hello").messages = initialStore.messages ∧
    (appendToStream initialStore "hello").streaming.pendingContent = "hello" := by
  constructor <;> rfl

/-- C4 amended: calling `appendToStream` while no stream is active raises
no error and is silently absorbed: the messages list is unchanged, the
stream stays inactive, and the chunk is merely buffered. -/
theorem c4_amended_silent_absorb (s : ChatStore) (c : String)
    (h : s.streaming.streamingMessageId = none) :
    (appendToStream s c).messages = s.messages ∧
    (appendToStream s c).streaming.streamingMessageId = none ∧
    (appendToStream s c).streaming.pendingContent = s.streaming.pendingContent ++ c := by
  have h1 : flushStreamBuffer s = s := flush_of_id_none s h
  unfold appendToStream
  rw [h1]
  simp [h]

theorem c4_amended_witness :
    initialStore.streaming.streamingMessageId = none ∧
    ((appendToStream initialStore "x").messages = initialStore.messages ∧
     (appendToStream initialStore "x").streaming.streamingMessageId = none ∧
     (appendToStream initialStore "x").streaming.pendingContent =
       initialStore.streaming.pendingContent ++ "x") :=
  ⟨rfl, c4_amended_silent_absorb initialStore "x" rfl⟩

/-! ## C10 — frame effect of appending with no active stream -/

/-- C10: with no active stream, `appendToStream` leaves the messages list
unchanged and raises no error (the chunk is buffered), a subsequent
`flushStreamBuffer` is a no-op, and the next `startAssistantMessage`
resets `pendingContent` to the empty string — so such chunks are never
merged into any message. -/
theorem c10_frame_no_active_stream (s : ChatStore) (c : String) (now : Nat)
    (h : s.streaming.streamingMessageId = none) :
    (appendToStream s c).messages = s.messages ∧
    (appendToStream s c).streaming.pendingContent = s.streaming.pendingContent ++ c ∧
    flushStreamBuffer (appendToStream s c) = appendToStream s c ∧
    (startAssistantMessage s now).streaming.pendingContent = "" := by
  have h1 : flushStreamBuffer s = s := flush_of_id_none s h
  have hid : (appendToStream s c).streaming.streamingMessageId = none := by
    unfold appendToStream
    rw [h1]
    simp [h]
  refine ⟨?_, ?_, flush_of_id_none _ hid, rfl⟩
  · unfold appendToStream
    rw [h1]
    simp
  · unfold appendToStream
    rw [h1]
    simp

theorem c10_witness :
    initialStore.streaming.streamingMessageId = none ∧
    ((appendToStream initialStore "y").messages = initialStore.messages ∧
     (appendToStream initialStore "y").streaming.pendingContent =
       initialStore.streaming.pendingContent ++ "y" ∧
     flushStreamBuffer (appendToStream initialStore "y") = appendToStream initialStore "y" ∧
     (startAssistantMessage initialStore 7).streaming.pendingContent = "") :=
  ⟨rfl, c10_frame_no_active_stream initialStore "y" 7 rfl⟩

theorem complete_of_id_none (t : ChatStore)
    (h : t.streaming.streamingMessageId = none) :
    completeStream t = t := by
  simp only [completeStream, flush_of_id_none t h, h]

theorem appendToStream_eq_pos (s : ChatStore) (c : String)
    (hcond : s.streaming.pendingContent.length > MAX_BUFFER_SIZE) :
    appendToStream s c =
      { flushStreamBuffer s with streaming := { (flushStreamBuffer s).streaming with
          pendingContent := (flushStreamBuffer s).streaming.pendingContent ++ c } } := by
  unfold appendToStream
  rw [if_pos hcond]

theorem appendToStream_eq_neg (s : ChatStore) (c : String)
    (hcond : ¬ s.streaming.pendingContent.length > MAX_BUFFER_SIZE) :
    appendToStream s c =
      { s with streaming := { s.streaming with
          pendingContent := s.streaming.pendingContent ++ c } } := by
  unfold appendToStream
  rw [if_neg hcond]

/-- `completeStream` in the found case, before simplification. -/
theorem complete_found (s : ChatStore) (mid i : Nat) (msg1 : Message)
    (hid : s.streaming.streamingMessageId = some mid)
    (hfi : findIndex (fun m => m.meta.id == mid) s.messages = some i)
    (hm1 : (flushStreamBuffer s).messages[i]? = some msg1) :
    completeStream s =
      { flushStreamBuffer s with
        messages := (flushStreamBuffer s).messages.set i
          { msg1 with meta := { msg1.meta with status := .complete } }
        streaming := { isStreaming := false, streamingMessageId := none,
                       pendingContent := "" } } := by
  simp only [completeStream, hid, hfi]
  rw [setMessageAt_eq _ _ _ msg1 hm1]

/-! ## C3 — at most one streaming message -/

theorem set_self {α : Type} :
    ∀ (l : List α) (i : Nat) (a : α), l[i]? = some a → l.set i a = l := by
  intro l
  induction l with
  | nil => intro i a h; simp at h
  | cons x l ih =>
    intro i a h
    cases i with
    | zero =>
      rw [List.getElem?_cons_zero] at h
      cases h
      rw [List.set_cons_zero]
    | succ i =>
      rw [List.getElem?_cons_succ] at h
      rw [List.set_cons_succ, ih i a h]

theorem map_set_eq {α β : Type} (f : α → β) (l : List α) (i : Nat) (v m : α)
    (hm : l[i]? = some m) (hf : f v = f m) :
    (l.set i v).map f = l.map f := by
  rw [List.map_set]
  apply set_self
  rw [List.getElem?_map, hm, Option.map_some', hf]

/-- `flushStreamBuffer` either returns the state unchanged or performs the
single merge described by `flush_merge`. -/
theorem flush_shape (s : ChatStore) :
    flushStreamBuffer s = s ∨
    ∃ mid i msg, s.streaming.streamingMessageId = some mid ∧
      s.streaming.pendingContent ≠ "" ∧
      findIndex (fun m => m.meta.id == mid) s.messages = some i ∧
      s.messages[i]? = some msg ∧
      flushStreamBuffer s =
        { s with
          messages := s.messages.set i
            { msg with content := msg.content ++ s.streaming.pendingContent }
          streaming := { s.streaming with pendingContent := "" } } := by
  cases hid : s.streaming.streamingMessageId with
  | none => exact Or.inl (flush_of_id_none s hid)
  | some mid =>
    by_cases hp : s.streaming.pendingContent = ""
    · exact Or.inl (flush_of_pending_empty s hp)
    · cases hfi : findIndex (fun m => m.meta.id == mid) s.messages with
      | none =>
        left
        simp only [flushStreamBuffer, hid, hp, if_false, hfi]
      | some i =>
        obtain ⟨msg, hm, -⟩ := findIndex_some _ _ _ hfi
        exact Or.inr ⟨mid, i, msg, rfl, hp, hfi, hm, flush_merge s mid i msg hid hp hfi hm⟩

/-- A flush never changes any message's metadata, the streaming target, the
streaming flag or the id counter. -/
theorem flush_frame (s : ChatStore) :
    (flushStreamBuffer s).messages.map (fun m => m.meta) =
      s.messages.map (fun m => m.meta) ∧
    (flushStreamBuffer s).streaming.streamingMessageId = s.streaming.streamingMessageId ∧
    (flushStreamBuffer s).streaming.isStreaming = s.streaming.isStreaming ∧
    (flushStreamBuffer s).nextId = s.nextId := by
  rcases flush_shape s with heq | ⟨mid, i, msg, hid, hp, hfi, hm, heq⟩
  · rw [heq]
    exact ⟨rfl, rfl, rfl, rfl⟩
  · rw [heq]
    exact ⟨map_set_eq _ _ _ _ msg hm rfl, rfl, rfl, rfl⟩

theorem meta_transfer (P : MessageMeta → Prop) (l1 l2 : List Message)
    (hmap : l1.map (fun m => m.meta) = l2.map (fun m => m.meta))
    (h : ∀ m ∈ l2, P m.meta) : ∀ m ∈ l1, P m.meta := by
  intro m hm
  have hmem : m.meta ∈ l2.map (fun m => m.meta) := by
    rw [← hmap]
    exact List.mem_map_of_mem _ hm
  obtain ⟨m2, hm2, he⟩ := List.mem_map.mp hmem
  rw [← he]
  exact h m2 hm2

theorem ids_of_meta_map (l1 l2 : List Message)
    (hmap : l1.map (fun m => m.meta) = l2.map (fun m => m.meta)) :
    l1.map (fun m => m.meta.id) = l2.map (fun m => m.meta.id) := by
  have h1 : l1.map (fun m => m.meta.id) =
      (l1.map (fun m => m.meta)).map (fun mt => mt.id) := by
    rw [List.map_map]
    rfl
  have h2 : l2.map (fun m => m.meta.id) =
      (l2.map (fun m => m.meta)).map (fun mt => mt.id) := by
    rw [List.map_map]
    rfl
  rw [h1, h2, hmap]

theorem init_inv : StoreInv initialStore := by
  refine ⟨rfl, by simp [initialStore], ?_, ?_, ?_⟩
  · intro m hm
    exact absurd hm (List.not_mem_nil m)
  · intro mid hmid
    exact absurd hmid (by simp [initialStore])
  · intro _ m hm
    exact absurd hm (List.not_mem_nil m)

theorem flush_inv (s : ChatStore) (h : StoreInv s) : StoreInv (flushStreamBuffer s) := by
  obtain ⟨ha, hb, hc, hd, he⟩ := h
  obtain ⟨hmap, hsid, hstr, hnext⟩ := flush_frame s
  refine ⟨?_, ?_, ?_, ?_, ?_⟩
  · rw [hstr, hsid]
    exact ha
  · rw [ids_of_meta_map _ _ hmap]
    exact hb
  · rw [hnext]
    exact meta_transfer (fun mt => mt.id < s.nextId) _ _ hmap hc
  · intro mid hmid
    rw [hsid] at hmid
    exact meta_transfer (fun mt => mt.status = .streaming → mt.id = mid) _ _ hmap
      (hd mid hmid)
  · intro hnone
    rw [hsid] at hnone
    exact meta_transfer (fun mt => mt.status ≠ .streaming) _ _ hmap (he hnone)

theorem append_inv (s : ChatStore) (c : String) (h : StoreInv s) :
    StoreInv (appendToStream s c) := by
  by_cases hcond : s.streaming.pendingContent.length > MAX_BUFFER_SIZE
  · rw [appendToStream_eq_pos _ _ hcond]
    obtain ⟨ha, hb, hc, hd, he⟩ := flush_inv s h
    exact ⟨ha, hb, hc, hd, he⟩
  · rw [appendToStream_eq_neg _ _ hcond]
    obtain ⟨ha, hb, hc, hd, he⟩ := h
    exact ⟨ha, hb, hc, hd, he⟩

theorem addUser_inv (s : ChatStore) (c : String) (now : Nat) (h : StoreInv s) :
    StoreInv (addUserMessage s c now) := by
  obtain ⟨ha, hb, hc, hd, he⟩ := h
  refine ⟨ha, ?_, ?_, ?_, ?_⟩
  · show (List.map _ (s.messages ++ [_])).Nodup
    rw [List.map_append, List.nodup_append]
    refine ⟨hb, by simp, ?_⟩
    intro a hain hbin
    simp only [List.map_cons, List.map_nil, List.mem_singleton] at hbin
    obtain ⟨m, hm, he2⟩ := List.mem_map.mp hain
    have hlt := hc m hm
    omega
  · intro m hm
    rcases List.mem_append.mp hm with h1 | h1
    · exact Nat.lt_trans (hc m h1) (Nat.lt_succ_self _)
    · rw [List.mem_singleton] at h1
      subst h1
      exact Nat.lt_succ_self _
  · intro mid hmid m hm hstr2
    rcases List.mem_append.mp hm with h1 | h1
    · exact hd mid hmid m h1 hstr2
    · rw [List.mem_singleton] at h1
      subst h1
      simp at hstr2
  · intro hnone m hm
    rcases List.mem_append.mp hm with h1 | h1
    · exact he hnone m h1
    · rw [List.mem_singleton] at h1
      subst h1
      simp

theorem start_inv (s : ChatStore) (now : Nat) (h : StoreInv s)
    (hguard : s.streaming.isStreaming = false) :
    StoreInv (startAssistantMessage s now) := by
  obtain ⟨ha, hb, hc, hd, he⟩ := h
  have hnone : s.streaming.streamingMessageId = none := by
    cases hx : s.streaming.streamingMessageId with
    | none => rfl
    | some mid =>
      rw [hguard, hx] at ha
      simp at ha
  have hnostream := he hnone
  refine ⟨rfl, ?_, ?_, ?_, ?_⟩
  · show (List.map _ (s.messages ++ [_])).Nodup
    rw [List.map_append, List.nodup_append]
    refine ⟨hb, by simp, ?_⟩
    intro a hain hbin
    simp only [List.map_cons, List.map_nil, List.mem_singleton] at hbin
    obtain ⟨m, hm, he2⟩ := List.mem_map.mp hain
    have hlt := hc m hm
    omega
  · intro m hm
    rcases List.mem_append.mp hm with h1 | h1
    · exact Nat.lt_trans (hc m h1) (Nat.lt_succ_self _)
    · rw [List.mem_singleton] at h1
      subst h1
      exact Nat.lt_succ_self _
  · intro mid hmid m hm hstr2
    have hmid2 : mid = s.nextId := by
      have hsome : (some s.nextId : Option Nat) = some mid := hmid
      exact (Option.some.inj hsome).symm
    rcases List.mem_append.mp hm with h1 | h1
    · exact absurd hstr2 (hnostream m h1)
    · rw [List.mem_singleton] at h1
      subst h1
      simpa using hmid2.symm
  · intro hnone2
    exact Option.noConfusion hnone2

theorem clear_inv (s : ChatStore) : StoreInv (clearMessages s) := by
  refine ⟨rfl, by simp [clearMessages], ?_, ?_, ?_⟩
  · intro m hm
    exact absurd hm (List.not_mem_nil m)
  · intro mid hmid
    exact Option.noConfusion hmid
  · intro _ m hm
    exact absurd hm (List.not_mem_nil m)

theorem complete_notfound (s : ChatStore) (mid : Nat)
    (hid : s.streaming.streamingMessageId = some mid)
    (hfi : findIndex (fun m => m.meta.id == mid) s.messages = none) :
    completeStream s = flushStreamBuffer s := by
  simp only [completeStream, hid, hfi]

theorem complete_inv (s : ChatStore) (h : StoreInv s) : StoreInv (completeStream s) := by
  cases hid : s.streaming.streamingMessageId with
  | none =>
    rw [complete_of_id_none s hid]
    exact h
  | some mid =>
    cases hfi : findIndex (fun m => m.meta.id == mid) s.messages with
    | none =>
      rw [complete_notfound s mid hid hfi]
      exact flush_inv s h
    | some i =>
      obtain ⟨orig, hmO, hpO⟩ := findIndex_some _ _ _ hfi
      have horigid : orig.meta.id = mid := by simpa using hpO
      obtain ⟨ha1, hb1, hc1, hd1, he1⟩ := flush_inv s h
      obtain ⟨hmap, hsid, hstr, hnextf⟩ := flush_frame s
      have hi : i < s.messages.length := by
        obtain ⟨hlt, -⟩ := List.getElem?_eq_some_iff.mp hmO
        exact hlt
      have hlen1 : (flushStreamBuffer s).messages.length = s.messages.length := by
        have hh := congrArg List.length hmap
        simpa using hh
      have hi1 : i < (flushStreamBuffer s).messages.length := by omega
      obtain ⟨msg1, hm1⟩ : ∃ msg1, (flushStreamBuffer s).messages[i]? = some msg1 := by
        cases hx : (flushStreamBuffer s).messages[i]? with
        | some m => exact ⟨m, rfl⟩
        | none =>
          have hle := List.getElem?_eq_none_iff.mp hx
          omega
      have hmeta1 : msg1.meta = orig.meta := by
        have hh := congrArg (fun l => l[i]?) hmap
        simp only [List.getElem?_map, hm1, hmO, Option.map_some'] at hh
        exact Option.some.inj hh
      have hs1id : (flushStreamBuffer s).streaming.streamingMessageId = some mid := by
        rw [hsid, hid]
      rw [complete_found s mid i msg1 hid hfi hm1]
      refine ⟨rfl, ?_, ?_, ?_, ?_⟩
      · show (List.map _ ((flushStreamBuffer s).messages.set i _)).Nodup
        rw [map_set_eq (fun m => m.meta.id) (flushStreamBuffer s).messages i
          { msg1 with meta := { msg1.meta with status := .complete } } msg1 hm1 (by rfl)]
        exact hb1
      · intro m hm
        rcases List.mem_or_eq_of_mem_set hm with h1 | h1
        · exact hc1 m h1
        · subst h1
          exact hc1 msg1 (List.mem_iff_getElem?.mpr ⟨i, hm1⟩)
      · intro mid2 hmid2
        exact absurd hmid2 (by simp)
      · intro _ m hm hstr2
        exfalso
        obtain ⟨j, hj, hje⟩ := List.mem_iff_getElem.mp hm
        rw [List.getElem_set] at hje
        by_cases hij : i = j
        · rw [if_pos hij] at hje
          rw [← hje] at hstr2
          simp at hstr2
        · rw [if_neg hij] at hje
          have hjlen : j < (flushStreamBuffer s).messages.length := by
            simpa using hj
          have hmem : m ∈ (flushStreamBuffer s).messages := by
            rw [← hje]
            exact List.getElem_mem _
          have hmid' : m.meta.id = mid := hd1 mid hs1id m hmem hstr2
          have hmsg1id : msg1.meta.id = mid := by
            rw [hmeta1]
            exact horigid
          have hinj := List.nodup_iff_injective_getElem.mp hb1
          have hLlen : ((flushStreamBuffer s).messages.map (fun m => m.meta.id)).length =
              (flushStreamBuffer s).messages.length := List.length_map _ _
          have hki : i < ((flushStreamBuffer s).messages.map (fun m => m.meta.id)).length := by
            omega
          have hkj : j < ((flushStreamBuffer s).messages.map (fun m => m.meta.id)).length := by
            omega
          have hgi : (flushStreamBuffer s).messages[i] = msg1 := by
            have hq := List.getElem?_eq_getElem hi1
            rw [hm1] at hq
            exact (Option.some.inj hq).symm
          have hvi : ((flushStreamBuffer s).messages.map (fun m => m.meta.id))[i] = mid := by
            rw [List.getElem_map, hgi, hmsg1id]
          have hvj : ((flushStreamBuffer s).messages.map (fun m => m.meta.id))[j] = mid := by
            rw [List.getElem_map, hje, hmid']
          have hfin : (⟨i, hki⟩ : Fin _) = ⟨j, hkj⟩ := by
            apply hinj
            show ((flushStreamBuffer s).messages.map (fun m => m.meta.id))[i] =
              ((flushStreamBuffer s).messages.map (fun m => m.meta.id))[j]
            rw [hvi, hvj]
          exact hij (congrArg Fin.val hfin)

theorem guarded_inv : ∀ s, GuardedReachable s → StoreInv s := by
  intro s h
  induction h with
  | init => exact init_inv
  | user h2 ih => exact addUser_inv _ _ _ ih
  | start h2 hguard ih => exact start_inv _ _ ih hguard
  | append h2 ih => exact append_inv _ _ ih
  | flush h2 ih => exact flush_inv _ ih
  | complete h2 ih => exact complete_inv _ ih
  | stop h2 ih => exact complete_inv _ ih
  | clear h2 ih => exact clear_inv _

theorem inv_streaming_count (s : ChatStore) (h : StoreInv s) : streamingCount s ≤ 1 := by
  obtain ⟨-, hb, -, hd, he⟩ := h
  unfold streamingCount
  cases hid : s.streaming.streamingMessageId with
  | none =>
    have h0 : s.messages.countP (fun m => m.meta.status == MessageStatus.streaming) = 0 := by
      rw [List.countP_eq_zero]
      intro m hm
      simp [he hid m hm]
    omega
  | some mid =>
    have hle : s.messages.countP (fun m => m.meta.status == MessageStatus.streaming) ≤
        s.messages.countP (fun m => m.meta.id == mid) := by
      apply List.countP_mono_left
      intro m hm hp
      have hst : m.meta.status = .streaming := by simpa using hp
      simp [hd mid hid m hm hst]
    have h1 : s.messages.countP (fun m => m.meta.id == mid) =
        (s.messages.map (fun m => m.meta.id)).countP (fun x => x == mid) := by
      rw [List.countP_map]
      rfl
    have h2 := (List.nodup_iff_count_le_one.mp hb) mid
    rw [List.count_eq_countP] at h2
    omega

/-- C3 counterexample: two bare `startAssistantMessage` calls form a
reachable sequence of public operations (the source never rejects starting
a stream while one is active), and leave *two* messages with status
`streaming`. -/
theorem c3_counterexample :
    Reachable (startAssistantMessage (startAssistantMessage initialStore 0) 0) ∧
    streamingCount (startAssistantMessage (startAssistantMessage initialStore 0) 0) = 2 :=
  ⟨.start (.start .init), by decide⟩

/-- C3 amended: in every state reachable by the public operations *with
`startAssistantMessage` only invoked while no stream is active*, at most
one message has status `streaming`. -/
theorem c3_amended_single_stream (s : ChatStore) (h : GuardedReachable s) :
    streamingCount s ≤ 1 :=
  inv_streaming_count s (guarded_inv s h)

theorem c3_amended_witness :
    GuardedReachable (startAssistantMessage initialStore 0) ∧
    streamingCount (startAssistantMessage initialStore 0) ≤ 1 :=
  ⟨.start .init rfl, c3_amended_single_stream _ (.start .init rfl)⟩

/-! ## C5 — completeStream after start + N appends -/

/-- The freshly created assistant message (id `s0.nextId`) is found last in
the list: all pre-existing ids are smaller. -/
theorem findIndex_fresh (s0 : ChatStore)
    (hid : ∀ m ∈ s0.messages, m.meta.id < s0.nextId)
    (msg : Message) (hmsg : msg.meta.id = s0.nextId) :
    findIndex (fun m => m.meta.id == s0.nextId) (s0.messages ++ [msg]) =
      some s0.messages.length := by
  apply findIndex_append_last _ _ (by simp [hmsg])
  intro m hm
  have hlt := hid m hm
  simp [Nat.ne_of_lt hlt]

theorem flush_midStream (s0 : ChatStore) (now : Nat)
    (hid : ∀ m ∈ s0.messages, m.meta.id < s0.nextId) (merged pending : String) :
    flushStreamBuffer (midStream s0 now merged pending) =
      midStream s0 now (merged ++ pending) "" := by
  by_cases hp : pending = ""
  · subst hp
    rw [flush_of_pending_empty _ rfl, String.append_empty]
  · have hp' : (midStream s0 now merged pending).streaming.pendingContent ≠ "" := hp
    have hfi : findIndex (fun m => m.meta.id == s0.nextId)
        (midStream s0 now merged pending).messages = some s0.messages.length :=
      findIndex_fresh s0 hid _ rfl
    have hgm : (midStream s0 now merged pending).messages[s0.messages.length]? =
        some { meta := { id := s0.nextId, role := .assistant, status := .streaming,
                         timestamp := now }
               content := merged } :=
      List.getElem?_concat_length _ _
    rw [flush_merge _ s0.nextId s0.messages.length _ rfl hp' hfi hgm]
    simp [midStream, List.set_append_right]

theorem append_midStream_flush (s0 : ChatStore) (now : Nat)
    (hid : ∀ m ∈ s0.messages, m.meta.id < s0.nextId) (merged pending c : String)
    (hcond : pending.length > MAX_BUFFER_SIZE) :
    appendToStream (midStream s0 now merged pending) c =
      midStream s0 now (merged ++ pending) c := by
  rw [appendToStream_eq_pos _ _ hcond, flush_midStream s0 now hid merged pending]
  simp [midStream]

theorem append_midStream_noflush (s0 : ChatStore) (now : Nat) (merged pending c : String)
    (hcond : ¬ pending.length > MAX_BUFFER_SIZE) :
    appendToStream (midStream s0 now merged pending) c =
      midStream s0 now merged (pending ++ c) := by
  rw [appendToStream_eq_neg _ _ hcond]
  simp [midStream]

theorem appendList_midStream (s0 : ChatStore) (now : Nat)
    (hid : ∀ m ∈ s0.messages, m.meta.id < s0.nextId) :
    ∀ (chunks : List String) (merged pending : String),
      ∃ merged2 pending2,
        appendList (midStream s0 now merged pending) chunks =
          midStream s0 now merged2 pending2 ∧
        merged2 ++ pending2 = merged ++ pending ++ String.join chunks := by
  intro chunks
  induction chunks with
  | nil =>
    intro merged pending
    refine ⟨merged, pending, rfl, ?_⟩
    simp [String.join]
  | cons c cs ih =>
    intro merged pending
    have hstep : appendList (midStream s0 now merged pending) (c :: cs) =
        appendList (appendToStream (midStream s0 now merged pending) c) cs := rfl
    by_cases hcond : pending.length > MAX_BUFFER_SIZE
    · obtain ⟨m2, p2, heq, hcat⟩ := ih (merged ++ pending) c
      refine ⟨m2, p2, ?_, ?_⟩
      · rw [hstep, append_midStream_flush s0 now hid merged pending c hcond]
        exact heq
      · rw [hcat, string_join_cons]
        simp [String.append_assoc]
    · obtain ⟨m2, p2, heq, hcat⟩ := ih merged (pending ++ c)
      refine ⟨m2, p2, ?_, ?_⟩
      · rw [hstep, append_midStream_noflush s0 now merged pending c hcond]
        exact heq
      · rw [hcat, string_join_cons]
        simp [String.append_assoc]

theorem complete_midStream (s0 : ChatStore) (now : Nat)
    (hid : ∀ m ∈ s0.messages, m.meta.id < s0.nextId) (merged pending : String) :
    completeStream (midStream s0 now merged pending) =
      { messages := s0.messages ++
          [{ meta := { id := s0.nextId, role := .assistant, status := .complete,
                       timestamp := now }
             content := merged ++ pending }]
        streaming := { isStreaming := false, streamingMessageId := none, pendingContent := "" }
        nextId := s0.nextId + 1 } := by
  have hfl := flush_midStream s0 now hid merged pending
  have hfi : findIndex (fun m => m.meta.id == s0.nextId)
      (midStream s0 now merged pending).messages = some s0.messages.length :=
    findIndex_fresh s0 hid _ rfl
  have hgm : (flushStreamBuffer (midStream s0 now merged pending)).messages[s0.messages.length]? =
      some { meta := { id := s0.nextId, role := .assistant, status := .streaming,
                       timestamp := now }
             content := merged ++ pending } := by
    rw [hfl]
    exact List.getElem?_concat_length _ _
  rw [complete_found (midStream s0 now merged pending) s0.nextId s0.messages.length
      _ rfl hfi hgm]
  rw [hfl]
  simp [midStream, List.set_append_right]

/-- C5: after `startAssistantMessage` followed by any sequence of
`appendToStream` calls, `completeStream` leaves that message with status
`complete` and content equal to the concatenation of all chunks in call
order, and clears the active-stream reference; a second `completeStream`
is a no-op.  (Hypothesis: all pre-existing ids are older than the fresh
one, which the `nanoid`-modelling counter guarantees.) -/
theorem c5_complete_stream (s : ChatStore) (now : Nat) (chunks : List String)
    (hid : ∀ m ∈ s.messages, m.meta.id < s.nextId) :
    completeStream (appendList (startAssistantMessage s now) chunks) =
      { messages := s.messages ++
          [{ meta := { id := s.nextId, role := .assistant, status := .complete,
                       timestamp := now }
             content := String.join chunks }]
        streaming := { isStreaming := false, streamingMessageId := none, pendingContent := "" }
        nextId := s.nextId + 1 } ∧
    completeStream (completeStream (appendList (startAssistantMessage s now) chunks)) =
      completeStream (appendList (startAssistantMessage s now) chunks) := by
  have hstart : startAssistantMessage s now = midStream s now "" "" := rfl
  obtain ⟨m2, p2, heq, hcat⟩ := appendList_midStream s now hid chunks "" ""
  have hcat2 : m2 ++ p2 = String.join chunks := by simpa using hcat
  constructor
  · rw [hstart, heq, complete_midStream s now hid m2 p2, hcat2]
  · rw [hstart, heq, complete_midStream s now hid m2 p2]
    exact complete_of_id_none _ rfl

theorem c5_witness :
    (∀ m ∈ initialStore.messages, m.meta.id < initialStore.nextId) ∧
    (completeStream (appendList (startAssistantMessage initialStore 5) ["a", "b"]) =
      { messages := initialStore.messages ++
          [{ meta := { id := initialStore.nextId, role := .assistant, status := .complete,
                       timestamp := 5 }
             content := String.join ["a", "b"] }]
        streaming := { isStreaming := false, streamingMessageId := none, pendingContent := "" }
        nextId := initialStore.nextId + 1 } ∧
     completeStream (completeStream (appendList (startAssistantMessage initialStore 5)
         ["a", "b"])) =
       completeStream (appendList (startAssistantMessage initialStore 5) ["a", "b"])) :=
  ⟨fun m hm => absurd hm (List.not_mem_nil m),
   c5_complete_stream initialStore 5 ["a", "b"]
     (fun m hm => absurd hm (List.not_mem_nil m))⟩

/-! ## C1 — buffer ceiling -/

/-- C1 counterexample: a single `appendToStream` whose chunk alone exceeds
the 50,000-character ceiling is *not* flushed first: right after the call
(an observable point) the buffer holds all 50,001 characters, exceeding
`MAX_BUFFER_SIZE` (the cap is tested on the buffer *before* appending). -/
theorem c1_counterexample :
    MAX_BUFFER_SIZE <
      (appendToStream (startAssistantMessage initialStore 0)
        (String.mk (List.replicate 50001 'a'))).streaming.pendingContent.length := by
  have h : (appendToStream (startAssistantMessage initialStore 0)
      (String.mk (List.replicate 50001 'a'))).streaming.pendingContent =
      String.mk (List.replicate 50001 'a') := rfl
  rw [h, String.length_mk, List.length_replicate]
  decide

/-- C1 amended: while a stream is active, after `appendToStream` the buffer
length is at most the 50,000-character ceiling *plus the appended chunk's
length*: the forced flush happens at the start of an append only when the
buffer already exceeds the ceiling, so a single chunk may overshoot it by
its own length. -/
theorem c1_amended_buffer_bound (s : ChatStore) (c : String) (mid i : Nat)
    (h : StreamActive s mid i) :
    (appendToStream s c).streaming.pendingContent.length ≤ MAX_BUFFER_SIZE + c.length := by
  obtain ⟨hid, hfi⟩ := h
  have hpost : (appendToStream s c).streaming.pendingContent =
      (if s.streaming.pendingContent.length > MAX_BUFFER_SIZE
       then flushStreamBuffer s else s).streaming.pendingContent ++ c := rfl
  rw [hpost, String.length_append]
  by_cases hcond : s.streaming.pendingContent.length > MAX_BUFFER_SIZE
  · rw [if_pos hcond, flush_pending_of_active s mid i hid hfi, String.length_empty]
    omega
  · rw [if_neg hcond]
    have hle : s.streaming.pendingContent.length ≤ MAX_BUFFER_SIZE := Nat.le_of_not_lt hcond
    omega

theorem c1_amended_witness :
    StreamActive (startAssistantMessage initialStore 0) 0 0 ∧
    (appendToStream (startAssistantMessage initialStore 0) "hi").streaming.pendingContent.length ≤
      MAX_BUFFER_SIZE + "hi".length :=
  ⟨by decide, c1_amended_buffer_bound _ "hi" 0 0 (by decide)⟩

/-! ## C6 — height estimate bounds and monotonicity -/

theorem textHeightFn_mono {n m : Nat} (h : n ≤ m) : textHeightFn n ≤ textHeightFn m := by
  unfold textHeightFn
  by_cases hn : n > 500
  · have hm : m > 500 := Nat.lt_of_lt_of_le hn h
    rw [if_pos hn, if_pos hm]
    have h1 : (0 : ℝ) < (n : ℝ) - 499 := by
      have hc : (500 : ℝ) < (n : ℝ) := by exact_mod_cast hn
      linarith
    have h2 : (n : ℝ) - 499 ≤ (m : ℝ) - 499 := by
      have hc : (n : ℝ) ≤ (m : ℝ) := by exact_mod_cast h
      linarith
    have hlog := Real.logb_le_logb_of_le (show (1 : ℝ) < 10 by norm_num) h1 h2
    linarith
  · by_cases hm : m > 500
    · rw [if_neg hn, if_pos hm]
      have hn500 : (n : ℝ) ≤ 500 := by exact_mod_cast Nat.le_of_not_lt hn
      have hlog : 0 ≤ Real.logb 10 ((m : ℝ) - 499) := by
        apply Real.logb_nonneg (show (1 : ℝ) < 10 by norm_num)
        have hc : (500 : ℝ) < (m : ℝ) := by exact_mod_cast hm
        linarith
      linarith
    · rw [if_neg hn, if_neg hm]
      have hc : (n : ℝ) ≤ (m : ℝ) := by exact_mod_cast h
      linarith

/-- C6: for every content length and code-fence count, the height estimate
is clamped into `[100, 12000]` (in particular at lengths 0 and 10,000,000),
and for a fixed code-fence count it is monotonically non-decreasing in the
content length. -/
theorem c6_estimate_bounds_mono :
    (∀ L C : Nat, 100 ≤ estimateSize L C ∧ estimateSize L C ≤ 12000) ∧
    (∀ C L1 L2 : Nat, L1 ≤ L2 → estimateSize L1 C ≤ estimateSize L2 C) := by
  constructor
  · intro L C
    simp only [estimateSize]
    constructor
    · exact le_min (by norm_num) (le_max_left _ _)
    · exact min_le_left _ _
  · intro C L1 L2 h
    simp only [estimateSize]
    apply min_le_min (le_refl _)
    apply max_le_max (le_refl _)
    have hth : textHeightFn ((min L1 200000 + 79) / 80) ≤
        textHeightFn ((min L2 200000 + 79) / 80) := by
      apply textHeightFn_mono
      apply Nat.div_le_div_right
      exact Nat.add_le_add_right (min_le_min h (le_refl _)) 79
    linarith

theorem c6_witness :
    (100 ≤ estimateSize 0 0 ∧ estimateSize 0 0 ≤ 12000) ∧
    (100 ≤ estimateSize 10000000 3 ∧ estimateSize 10000000 3 ≤ 12000) ∧
    (0 ≤ 10000000 ∧ estimateSize 0 2 ≤ estimateSize 10000000 2) :=
  ⟨c6_estimate_bounds_mono.1 0 0, c6_estimate_bounds_mono.1 10000000 3,
   Nat.zero_le _, c6_estimate_bounds_mono.2 2 0 10000000 (Nat.zero_le _)⟩

/-! ## C7 — auto-scroll anchor state machine -/

/-- C7: the anchor starts in `followingBottom`; a scroll event where
`atBottom` becomes false while following transitions to `free`
(`isUserScrolling = true`); a scroll event with `atBottom = true` while
free transitions back to `followingBottom`; and a new user-authored
message forces `followingBottom` from any state. -/
theorem c7_scroll_anchor :
    followingBottom initialScrollState ∧
    (∀ st : ScrollState, followingBottom st → st.wasAtBottom = true →
      (handleScroll st false).isUserScrolling = true) ∧
    (∀ st : ScrollState, st.isUserScrolling = true →
      followingBottom (handleScroll st true)) ∧
    (∀ st : ScrollState, followingBottom (onUserMessage st)) := by
  refine ⟨rfl, ?_, ?_, ?_⟩
  · intro st h hw
    simp [handleScroll, hw]
  · intro st h
    simp [handleScroll, followingBottom, h]
  · intro st
    simp [onUserMessage, followingBottom]

theorem c7_witness :
    followingBottom initialScrollState ∧
    (followingBottom initialScrollState ∧ initialScrollState.wasAtBottom = true ∧
      (handleScroll initialScrollState false).isUserScrolling = true) ∧
    ((handleScroll initialScrollState false).isUserScrolling = true ∧
      followingBottom (handleScroll (handleScroll initialScrollState false) true)) ∧
    followingBottom (onUserMessage (handleScroll initialScrollState false)) :=
  ⟨c7_scroll_anchor.1,
   ⟨by decide, by decide,
    c7_scroll_anchor.2.1 initialScrollState (by decide) (by decide)⟩,
   ⟨by decide, c7_scroll_anchor.2.2.1 (handleScroll initialScrollState false) (by decide)⟩,
   c7_scroll_anchor.2.2.2 (handleScroll initialScrollState false)⟩

/-! ## C9 — renderer display truncation -/

/-- C9: the painted text equals the stored content when it is at most
200,000 characters, and the first 200,000 characters followed by the fixed
truncation notice otherwise; it is a pure function of the content, so the
stored content itself is never altered. -/
theorem c9_display_truncation (content : String) :
    (content.length ≤ MAX_RENDER_SIZE → displayContent content = content) ∧
    (content.length > MAX_RENDER_SIZE →
      displayContent content = content.take MAX_RENDER_SIZE ++ truncationNotice) := by
  constructor
  · intro h
    unfold displayContent
    rw [if_neg (Nat.not_lt.mpr h)]
  · intro h
    unfold displayContent
    rw [if_pos h]

theorem c9_witness :
    "abc".length ≤ MAX_RENDER_SIZE ∧ displayContent "abc" = "abc" :=
  ⟨by decide, (c9_display_truncation "abc").1 (by decide)⟩

end ChatStreamer
